import Mathlib

/-!
UCSB_connect: the auth and profile REST routes.

A shallow embedding of `routes/api/auth.js` and `routes/api/profile.js`.
Every route handler becomes a function from the document store and the request
to the new store and the outcome of the request.  The collaborators that live
outside the repository (the password hash comparison, the token signer, the URL
normaliser, the e-mail syntax test, the ObjectId cast, the schema validator of
the ODM) are parameters of the handlers that use them.  The `auth` middleware
has already run when a private handler starts, so a private handler receives
the caller id `req.user.id` as an argument.
-/

namespace UCSBConnect

/-! ## JavaScript primitives -/

/-- Truthiness of an optional string: `undefined` and the empty string are falsy. -/
def truthy : Option String → Bool
  | none => false
  | some v => v != ""

/-- The method `Array.prototype.indexOf` on an array of strings: the first index whose
element is strictly equal to the target, and -1 when there is none.  The target
`none` is the value `undefined`, which is strictly equal to no string. -/
def jsIndexOf : List String → Option String → Int
  | [], _ => -1
  | x :: xs, target =>
    if some x = target then 0
    else
      let r := jsIndexOf xs target
      if r < 0 then -1 else r + 1

/-- The method `Array.prototype.splice(start, deleteCount)` with no inserted items; the
result is the array after the call.  A negative start counts from the end and is
clamped at 0, a start past the end is clamped at the length, and the delete count
is clamped to what is left after the start. -/
def jsSplice {α : Type} (xs : List α) (start : Int) (deleteCount : Nat) : List α :=
  let len : Int := xs.length
  let actualStart : Nat :=
    if start < 0 then (max (len + start) 0).toNat else min start.toNat xs.length
  let actualDeleteCount : Nat := min deleteCount (xs.length - actualStart)
  xs.take actualStart ++ xs.drop (actualStart + actualDeleteCount)

/-- The white space and line terminator code points that `String.prototype.trim` strips. -/
def isJsWhiteSpace (c : Char) : Bool :=
  let n := c.toNat
  n == 0x09 || n == 0x0A || n == 0x0B || n == 0x0C || n == 0x0D || n == 0x20 ||
  n == 0xA0 || n == 0x1680 || (0x2000 ≤ n && n ≤ 0x200A) || n == 0x2028 ||
  n == 0x2029 || n == 0x202F || n == 0x205F || n == 0x3000 || n == 0xFEFF

/-- Splitting a character list at every comma, as `split(",")` does: the empty string
gives one empty piece, and n commas give n + 1 pieces. -/
def splitCommaChars : List Char → List (List Char)
  | [] => [[]]
  | c :: cs =>
    if c = ',' then [] :: splitCommaChars cs
    else
      match splitCommaChars cs with
      | [] => [[c]]
      | piece :: pieces => (c :: piece) :: pieces

/-- The call `s.split(",")`. -/
def jsSplitComma (s : String) : List String :=
  (splitCommaChars s.data).map String.mk

/-- Stripping white space from both ends of a character list. -/
def trimChars (cs : List Char) : List Char :=
  ((cs.dropWhile isJsWhiteSpace).reverse.dropWhile isJsWhiteSpace).reverse

/-- The call `s.trim()`. -/
def jsTrim (s : String) : String :=
  String.mk (trimChars s.data)

/-- The call `xs.join(sep)` on an array of strings. -/
def jsJoin (sep : String) (xs : List String) : String :=
  String.mk (List.intercalate sep.data (xs.map String.data))

/-! ## Documents and the store -/

/-- One entry of the list `profile.experience`; `id` is the string form of the `_id`
the ODM gives each subdocument. -/
structure Experience where
  id : String
  title : Option String
  company : Option String
  location : Option String
  fromDate : Option String
  toDate : Option String
  current : Option Bool
  description : Option String
  deriving DecidableEq, Repr

/-- One entry of the list `profile.education`. -/
structure Education where
  id : String
  school : Option String
  degree : Option String
  fieldofstudy : Option String
  fromDate : Option String
  toDate : Option String
  current : Option Bool
  description : Option String
  deriving DecidableEq, Repr

/-- The object `profileFields.social`: a key is present only when it was assigned. -/
structure Social where
  youtube : Option String
  twitter : Option String
  facebook : Option String
  linkedin : Option String
  instagram : Option String
  deriving DecidableEq, Repr

/-- A document of the Profile collection, with the fields `profile.js` reads and writes. -/
structure Profile where
  user : String
  company : Option String
  location : Option String
  website : Option String
  bio : Option String
  skills : List String
  status : Option String
  githubusername : Option String
  social : Social
  experience : List Experience
  education : List Education
  deriving DecidableEq, Repr

/-- A document of the User collection. -/
structure User where
  id : String
  name : String
  email : String
  password : String
  avatar : String
  deriving DecidableEq, Repr

/-- A document of the Post collection; only its owner matters to these routes. -/
structure Post where
  id : String
  user : String
  text : String
  deriving DecidableEq, Repr

/-- The three collections of the database. -/
structure Store where
  users : List User
  profiles : List Profile
  posts : List Post
  deriving DecidableEq, Repr

/-- The awaited database calls of a handler are numbered from 0 in the order the
handler reaches them; `faults k = true` says that call k rejects. -/
abbrev DbFaults := Nat → Bool

/-- A database on which every call completes. -/
def noFaults : DbFaults := fun _ => false

/-! ## Responses -/

/-- One element of an error array: the validator library produces all four keys, the
login handler writes an object with the key `msg` alone. -/
structure ErrItem where
  msg : String
  param : Option String
  value : Option String
  location : Option String
  deriving DecidableEq, Repr

/-- The `name` and `avatar` that `populate("user", ["name", "avatar"])` puts in place of
the owner id. -/
structure PublicUser where
  id : String
  name : String
  avatar : String
  deriving DecidableEq, Repr

/-- What a handler passes to `res.json` or `res.send`. -/
inductive Body where
  /-- The object with one key holding an error array, as in `res.json` of an `errors` object. -/
  | keyed (key : String) (items : List ErrItem)
  /-- The object with the single key `msg`. -/
  | msg (m : String)
  /-- A profile document, or `null`. -/
  | profile (p : Option Profile)
  /-- A profile document whose `user` has been populated (`null` when the user is gone). -/
  | populated (p : Profile) (owner : Option PublicUser)
  /-- The object with the single key `token`. -/
  | token (t : String)
  /-- A plain text body sent with `res.send`. -/
  | text (s : String)
  deriving DecidableEq, Repr

/-- An HTTP response: status code and body. -/
structure Response where
  status : Nat
  body : Body
  deriving DecidableEq, Repr

/-- How a handler ends: it sends a response, or an exception escapes it and nothing is
sent. -/
inductive Outcome where
  | responded (r : Response)
  | threw (error : String)
  deriving DecidableEq, Repr

/-- The call `res.json(body)` with the default status. -/
def json (body : Body) : Outcome := .responded ⟨200, body⟩

/-- The catch branch of the profile routes. -/
def serverError : Outcome := .responded ⟨500, .text "Server Error"⟩

/-! ## Request validation -/

/-- The call `validationResult(req)`: the errors of the check chains registered on the
route, in order. -/
def validationResult {β : Type} (checks : List (β → List ErrItem)) (body : β) : List ErrItem :=
  checks.flatMap (fun c => c body)

/-- The chain `check(field, msg).not().isEmpty()`: a missing field is read as the empty
string, and the empty string is rejected. -/
def checkNotEmpty (field msg : String) (value : Option String) : List ErrItem :=
  if value.getD "" = "" then [⟨msg, some field, value, some "body"⟩] else []

/-- The chain `check(field, msg).exists()`: rejects `undefined`. -/
def checkExists (field msg : String) (value : Option String) : List ErrItem :=
  match value with
  | none => [⟨msg, some field, none, some "body"⟩]
  | some _ => []

/-- The chain `check(field, msg).isEmail()` over the e-mail test of the validator library. -/
def checkIsEmail (isEmail : String → Bool) (field msg : String) (value : Option String) :
    List ErrItem :=
  if isEmail (value.getD "") then [] else [⟨msg, some field, value, some "body"⟩]

/-! ## `routes/api/auth.js` -/

/-- The body of `POST /api/auth`. -/
structure LoginBody where
  email : Option String
  password : Option String
  deriving DecidableEq, Repr

/-- The check chains of `POST /api/auth`. -/
def loginChecks (isEmail : String → Bool) : List (LoginBody → List ErrItem) :=
  [fun b => checkIsEmail isEmail "email" "Please include a valid email" b.email,
   fun b => checkExists "password" "Password is required" b.password]

/-- The handler of `POST /api/auth`.  `compare` is `bcrypt.compare` and `sign` is `jwt.sign` on
the payload built from the user id, `none` when signing fails (the callback then
throws outside the try block). -/
def login (isEmail : String → Bool) (compare : String → String → Bool)
    (sign : String → Option String) (faults : DbFaults) (s : Store) (body : LoginBody) :
    Outcome :=
  let errors := validationResult (loginChecks isEmail) body
  if !errors.isEmpty then .responded ⟨400, .keyed "errors" errors⟩
  else if faults 0 then .responded ⟨500, .text "Server error"⟩
  else
    match s.users.find? (fun u => some u.email == body.email) with
    | none => .responded ⟨400, .keyed "errors" [⟨"Invalid credentials", none, none, none⟩]⟩
    | some user =>
      if !compare (body.password.getD "") user.password then
        .responded ⟨400, .keyed "erros" [⟨"Invalid credentials", none, none, none⟩]⟩
      else
        match sign user.id with
        | some token => json (.token token)
        | none => .threw "jwt.sign"

/-! ## `routes/api/profile.js` -/

/-- The call `Profile.findOne` with the filter on the owner: the first profile of that user. -/
def findProfile (s : Store) (uid : String) : Option Profile :=
  s.profiles.find? (fun p => p.user == uid)

/-- The call `populate("user", ["name", "avatar"])`: the owner record cut down to its public
keys, `none` when no user has that id. -/
def populateUser (s : Store) (p : Profile) : Option PublicUser :=
  (s.users.find? (fun u => u.id == p.user)).map (fun u => ⟨u.id, u.name, u.avatar⟩)

/-- Writing a loaded profile back with `profile.save()`: the document that `findProfile`
returned for this owner is replaced. -/
def saveProfile (uid : String) (doc : Profile) : List Profile → List Profile
  | [] => []
  | p :: ps => if p.user == uid then doc :: ps else p :: saveProfile uid doc ps

/-- The handler of `GET /api/profile/me`. -/
def getOwnProfile (faults : DbFaults) (s : Store) (uid : String) : Outcome :=
  if faults 0 then serverError
  else
    match findProfile s uid with
    | none => .responded ⟨400, .msg "There is no profile for this user"⟩
    | some profile => json (.populated profile (populateUser s profile))

/-- The `skills` key of the body of `POST /api/profile`: absent, a string, or an array of
strings. -/
inductive SkillsInput where
  | missing
  | text (s : String)
  | list (l : List String)
  deriving DecidableEq, Repr

/-- The body of `POST /api/profile`. -/
structure ProfileBody where
  company : Option String
  website : Option String
  location : Option String
  bio : Option String
  status : Option String
  githubusername : Option String
  skills : SkillsInput
  youtube : Option String
  facebook : Option String
  twitter : Option String
  instagram : Option String
  linkedin : Option String
  deriving DecidableEq, Repr

/-- The object `profileFields` that the handler builds and hands to the database. -/
structure ProfileFields where
  user : String
  company : Option String
  location : Option String
  website : String
  bio : Option String
  skills : List String
  status : Option String
  githubusername : Option String
  social : Social
  deriving DecidableEq, Repr

/-- The expression for `profileFields.skills`: an array is taken as it is, anything else is
split at commas, each piece trimmed and given one leading space.  Reading `split` off
`undefined` throws, which is `none` here. -/
def normalizeSkills : SkillsInput → Option (List String)
  | .list l => some l
  | .text s => some ((jsSplitComma s).map (fun skill => " " ++ jsTrim skill))
  | .missing => none

/-- The expression for `profileFields.website` over the URL normaliser `normalize`. -/
def normalizeWebsite (normalize : String → String) (website : Option String) : String :=
  match website with
  | some w => if w != "" then normalize w else ""
  | none => ""

/-- A social key is assigned only when the body value is truthy. -/
def socialKey (v : Option String) : Option String :=
  if truthy v then v else none

/-- The object `profileFields.social`. -/
def buildSocial (body : ProfileBody) : Social where
  youtube := socialKey body.youtube
  twitter := socialKey body.twitter
  facebook := socialKey body.facebook
  linkedin := socialKey body.linkedin
  instagram := socialKey body.instagram

/-- Building `profileFields`; `none` when the skills expression throws. -/
def buildProfileFields (normalize : String → String) (uid : String) (body : ProfileBody) :
    Option ProfileFields :=
  match normalizeSkills body.skills with
  | none => none
  | some skills =>
    some {
      user := uid
      company := body.company
      location := body.location
      website := normalizeWebsite normalize body.website
      bio := body.bio
      skills := skills
      status := body.status
      githubusername := body.githubusername
      social := buildSocial body }

/-- The update operator `$set` with `profileFields`: every key of the object replaces the
stored value of that key, a key holding `undefined` leaving no value; the nested
lists are not keys of the object and stay. -/
def applySet (p : Profile) (f : ProfileFields) : Profile :=
  { p with
    user := f.user
    company := f.company
    location := f.location
    website := some f.website
    bio := f.bio
    skills := f.skills
    status := f.status
    githubusername := f.githubusername
    social := f.social }

/-- The call `Profile.findOneAndUpdate` with the filter on the owner, `$set` and `new: true`: the
first profile of the owner is updated and returned, `none` when there is none. -/
def findOneAndUpdate (uid : String) (f : ProfileFields) :
    List Profile → List Profile × Option Profile
  | [] => ([], none)
  | p :: ps =>
    if p.user == uid then (applySet p f :: ps, some (applySet p f))
    else ((p :: (findOneAndUpdate uid f ps).1), (findOneAndUpdate uid f ps).2)

/-- The call `new Profile(profileFields)`: the nested lists start empty. -/
def newProfile (f : ProfileFields) : Profile where
  user := f.user
  company := f.company
  location := f.location
  website := some f.website
  bio := f.bio
  skills := f.skills
  status := f.status
  githubusername := f.githubusername
  social := f.social
  experience := []
  education := []

/-- The check chains of `POST /api/profile`: the route registers `[auth]` alone. -/
def upsertChecks : List (ProfileBody → List ErrItem) := []

/-- The handler of `POST /api/profile`.  `schemaOk` is the schema validation that `save` runs on a
new document.  Building `profileFields` happens before the try block, so an
exception there escapes the handler. -/
def upsertProfile (normalize : String → String) (schemaOk : Profile → Bool)
    (faults : DbFaults) (s : Store) (uid : String) (body : ProfileBody) : Store × Outcome :=
  let errors := validationResult upsertChecks body
  if !errors.isEmpty then (s, .responded ⟨400, .keyed "errors" errors⟩)
  else
    match buildProfileFields normalize uid body with
    | none => (s, .threw "TypeError")
    | some profileFields =>
      if faults 0 then (s, serverError)
      else
        match findProfile s uid with
        | some _ =>
          if faults 1 then (s, serverError)
          else
            let r := findOneAndUpdate uid profileFields s.profiles
            ({ s with profiles := r.1 }, json (.profile r.2))
        | none =>
          let profile := newProfile profileFields
          if faults 1 || !schemaOk profile then (s, serverError)
          else ({ s with profiles := s.profiles ++ [profile] }, json (.profile (some profile)))

/-- The handler of `GET /api/profile/user/:user_id`.  `castOk` says whether the path value casts
to an ObjectId; a failed cast lands in the catch branch with `err.kind` equal to
`"ObjectId"`. -/
def getByUserId (castOk : String → Bool) (faults : DbFaults) (s : Store) (userId : String) :
    Outcome :=
  if !castOk userId then .responded ⟨400, .msg "Profile not found"⟩
  else if faults 0 then serverError
  else
    match findProfile s userId with
    | none => .responded ⟨400, .msg "Profile not found"⟩
    | some profile => json (.populated profile (populateUser s profile))

/-- The handler of `DELETE /api/profile`: the posts of the caller, then one profile of the
caller, then one user record with the caller id; a rejected call stops the
sequence and keeps what the earlier calls did. -/
def deleteOwn (faults : DbFaults) (s : Store) (uid : String) : Store × Outcome :=
  if faults 0 then (s, serverError)
  else
    let s1 : Store := { s with posts := s.posts.filter (fun p => !(p.user == uid)) }
    if faults 1 then (s1, serverError)
    else
      let s2 : Store := { s1 with profiles := s1.profiles.eraseP (fun p => p.user == uid) }
      if faults 2 then (s2, serverError)
      else
        let s3 : Store := { s2 with users := s2.users.eraseP (fun u => u.id == uid) }
        (s3, json (.msg "User removed"))

/-- The body of `PUT /api/profile/experience`. -/
structure ExperienceBody where
  title : Option String
  company : Option String
  location : Option String
  fromDate : Option String
  toDate : Option String
  current : Option Bool
  description : Option String
  deriving DecidableEq, Repr

/-- The check chains of `PUT /api/profile/experience`. -/
def experienceChecks : List (ExperienceBody → List ErrItem) :=
  [fun b => checkNotEmpty "title" "Title is required" b.title,
   fun b => checkNotEmpty "company" "Company is required" b.company,
   fun b => checkNotEmpty "from" "From date is required" b.fromDate]

/-- The object `newExp`, as the subdocument with identifier `newId` it becomes in the list. -/
def newExp (newId : String) (b : ExperienceBody) : Experience where
  id := newId
  title := b.title
  company := b.company
  location := b.location
  fromDate := b.fromDate
  toDate := b.toDate
  current := b.current
  description := b.description

/-- The handler of `PUT /api/profile/experience`.  When no profile is found `profile` is `null` and
reading `profile.experience` throws inside the try block.  The call `profile.save()`
is not awaited, so its rejection does not change the response. -/
def addExperience (newId : String) (faults : DbFaults) (s : Store) (uid : String)
    (body : ExperienceBody) : Store × Outcome :=
  let errors := validationResult experienceChecks body
  if !errors.isEmpty then (s, .responded ⟨400, .keyed "errors" errors⟩)
  else if faults 0 then (s, serverError)
  else
    match findProfile s uid with
    | none => (s, serverError)
    | some profile =>
      let profile1 : Profile :=
        { profile with experience := newExp newId body :: profile.experience }
      let s1 : Store :=
        if faults 1 then s else { s with profiles := saveProfile uid profile1 s.profiles }
      (s1, json (.profile (some profile1)))

/-- The body of `PUT /api/profile/education`. -/
structure EducationBody where
  school : Option String
  degree : Option String
  fieldofstudy : Option String
  fromDate : Option String
  toDate : Option String
  current : Option Bool
  description : Option String
  deriving DecidableEq, Repr

/-- The check chains of `PUT /api/profile/education`. -/
def educationChecks : List (EducationBody → List ErrItem) :=
  [fun b => checkNotEmpty "school" "School is required" b.school,
   fun b => checkNotEmpty "degree" "Degree is required" b.degree,
   fun b => checkNotEmpty "fieldofstudy" "Field of study is required" b.fieldofstudy,
   fun b => checkNotEmpty "from" "From date is required" b.fromDate]

/-- The object `newEdu`, as the subdocument with identifier `newId` it becomes in the list. -/
def newEdu (newId : String) (b : EducationBody) : Education where
  id := newId
  school := b.school
  degree := b.degree
  fieldofstudy := b.fieldofstudy
  fromDate := b.fromDate
  toDate := b.toDate
  current := b.current
  description := b.description

/-- The handler of `PUT /api/profile/education`. -/
def addEducation (newId : String) (faults : DbFaults) (s : Store) (uid : String)
    (body : EducationBody) : Store × Outcome :=
  let errors := validationResult educationChecks body
  if !errors.isEmpty then (s, .responded ⟨400, .keyed "errors" errors⟩)
  else if faults 0 then (s, serverError)
  else
    match findProfile s uid with
    | none => (s, serverError)
    | some profile =>
      let profile1 : Profile :=
        { profile with education := newEdu newId body :: profile.education }
      let s1 : Store :=
        if faults 1 then s else { s with profiles := saveProfile uid profile1 s.profiles }
      (s1, json (.profile (some profile1)))

/-- The object `req.params`: the names the route path declares, with the values of the
request path. -/
abbrev Params := List (String × String)

/-- Reading `req.params[name]`; `none` is `undefined`. -/
def Params.get (ps : Params) (name : String) : Option String :=
  (ps.find? (fun kv => kv.1 == name)).map (fun kv => kv.2)

/-- The index computed under the comment "Get removed index" of the experience route. -/
def experienceRemoveIndex (profile : Profile) (params : Params) : Int :=
  jsIndexOf (profile.experience.map (fun item => item.id)) (params.get "exp_id")

/-- The body of the handler of `DELETE /api/profile/experience/:exp_id`. -/
def removeExperienceHandler (faults : DbFaults) (s : Store) (uid : String) (params : Params) :
    Store × Outcome :=
  if faults 0 then (s, serverError)
  else
    match findProfile s uid with
    | none => (s, serverError)
    | some profile =>
      let removeIndex := experienceRemoveIndex profile params
      let profile1 : Profile :=
        { profile with experience := jsSplice profile.experience removeIndex 1 }
      if faults 1 then (s, serverError)
      else ({ s with profiles := saveProfile uid profile1 s.profiles },
            json (.profile (some profile1)))

/-- The route `DELETE /api/profile/experience/:exp_id` on a request whose path ends in `entryId`. -/
def removeExperience (faults : DbFaults) (s : Store) (uid : String) (entryId : String) :
    Store × Outcome :=
  removeExperienceHandler faults s uid [("exp_id", entryId)]

/-- The index computed under the comment "Get removed index" of the education route: the
handler reads the parameter `edu_id`. -/
def educationRemoveIndex (profile : Profile) (params : Params) : Int :=
  jsIndexOf (profile.education.map (fun item => item.id)) (params.get "edu_id")

/-- The body of the handler of `DELETE /api/profile/education/:exp_id`. -/
def removeEducationHandler (faults : DbFaults) (s : Store) (uid : String) (params : Params) :
    Store × Outcome :=
  if faults 0 then (s, serverError)
  else
    match findProfile s uid with
    | none => (s, serverError)
    | some profile =>
      let removeIndex := educationRemoveIndex profile params
      let profile1 : Profile :=
        { profile with education := jsSplice profile.education removeIndex 1 }
      if faults 1 then (s, serverError)
      else ({ s with profiles := saveProfile uid profile1 s.profiles },
            json (.profile (some profile1)))

/-- The route `DELETE /api/profile/education/:exp_id` on a request whose path ends in `entryId`: the
path declares the parameter `exp_id`. -/
def removeEducation (faults : DbFaults) (s : Store) (uid : String) (entryId : String) :
    Store × Outcome :=
  removeEducationHandler faults s uid [("exp_id", entryId)]

/-! ## Sample data

Concrete stores and requests on which the handlers are evaluated. -/

/-- A sample experience entry. -/
def expA : Experience :=
  ⟨"x1", some "Eng", some "X", none, some "2020-01-01", none, some true, none⟩

/-- A second sample experience entry. -/
def expB : Experience :=
  ⟨"x2", some "Intern", some "Y", none, some "2018-06-01", some "2018-09-01", none, none⟩

/-- A sample education entry. -/
def eduA : Education :=
  ⟨"d1", some "UCSB", some "BS", some "CS", some "2014-09-01", some "2018-06-01", none, none⟩

/-- A second sample education entry. -/
def eduB : Education :=
  ⟨"d2", some "SBCC", some "AS", some "Math", some "2012-09-01", some "2014-06-01", none, none⟩

/-- The social object with no key assigned. -/
def noSocial : Social := ⟨none, none, none, none, none⟩

/-- The profile of user u1, with two experience and two education entries. -/
def annProfile : Profile :=
  ⟨"u1", some "X", none, some "https://ann.example.com", none, ["js"], some "Developer", none,
    noSocial, [expA, expB], [eduA, eduB]⟩

/-- The profile of user u2, with empty lists. -/
def bobProfile : Profile :=
  ⟨"u2", none, none, some "", none, ["go"], some "Student", none, noSocial, [], []⟩

/-- User u1. -/
def ann : User := ⟨"u1", "Ann", "ann@example.com", "hash:secret", "ann.png"⟩

/-- User u2. -/
def bob : User := ⟨"u2", "Bob", "bob@example.com", "hash:hunter2", "bob.png"⟩

/-- User u3, who has no profile in the sample store. -/
def cat : User := ⟨"u3", "Cat", "cat@example.com", "hash:pw", "cat.png"⟩

/-- Three users, profiles for two of them, and three posts. -/
def sampleStore : Store :=
  ⟨[ann, bob, cat], [annProfile, bobProfile],
    [⟨"p1", "u1", "hello"⟩, ⟨"p2", "u2", "hi"⟩, ⟨"p3", "u1", "again"⟩]⟩

/-- The experience body of the example in the specification. -/
def engBody : ExperienceBody :=
  ⟨some "Eng", some "X", none, some "2020-01-01", none, none, none⟩

/-- An education body with every required field. -/
def bsBody : EducationBody :=
  ⟨some "UCSB", some "BS", some "CS", some "2014-09-01", none, none, none⟩

/-- A first profile document owned by u1. -/
def annDraft : Profile :=
  ⟨"u1", none, none, some "", none, ["js"], some "Developer", none, noSocial, [], []⟩

/-- A second profile document owned by u1. -/
def annSecond : Profile :=
  ⟨"u1", some "X", none, some "", none, ["go"], some "Manager", none, noSocial, [], []⟩

/-- A store in which u1 owns two profile documents; the user ids are distinct. -/
def duplicateStore : Store :=
  ⟨[ann, bob], [annDraft, bobProfile, annSecond], [⟨"p1", "u1", "hello"⟩, ⟨"p2", "u2", "hi"⟩]⟩

/-- A store in which u1 has no profile yet. -/
def bobOnlyStore : Store := ⟨[ann, bob], [bobProfile], []⟩

/-- A stand-in for the URL normaliser on the sample requests. -/
def sampleNormalize (w : String) : String := "https://" ++ w

/-- A stand-in for the schema validation on the sample requests: a status is required. -/
def sampleSchemaOk (p : Profile) : Bool := p.status.isSome

/-- A stand-in for the e-mail test on the sample requests. -/
def sampleIsEmail (e : String) : Bool := e.data.contains '@'

/-- A stand-in for the hash comparison on the sample requests. -/
def sampleCompare (password hash : String) : Bool := "hash:" ++ password == hash

/-- A stand-in for the token signer on the sample requests. -/
def sampleSign (id : String) : Option String := some ("token-" ++ id)

/-- A first profile body, with the skills as one string. -/
def firstBody : ProfileBody :=
  ⟨some "X", some "ann.example.com", none, none, some "Developer", none, .text "js, lean",
    some "yt", none, none, none, none⟩

/-- A second profile body, with the skills as an array. -/
def secondBody : ProfileBody :=
  ⟨none, none, some "Goleta", some "hi", some "Manager", some "ann", .list ["go"],
    none, none, some "tw", none, none⟩

/-- The profile that `firstBody` creates for u1. -/
def annFirst : Profile :=
  ⟨"u1", some "X", none, some "https://ann.example.com", none, [" js", " lean"],
    some "Developer", none, ⟨some "yt", none, none, none, none⟩, [], []⟩

/-- The profile of u1 after `firstBody` and then `secondBody`. -/
def annLater : Profile :=
  ⟨"u1", none, some "Goleta", some "", some "hi", ["go"], some "Manager", some "ann",
    ⟨none, some "tw", none, none, none⟩, [], []⟩

/-- A profile body with a status and no `skills` key. -/
def noSkillsBody : ProfileBody :=
  ⟨none, none, none, none, some "Developer", none, .missing, none, none, none, none, none⟩

/-- A profile body with no status and the empty string as skills. -/
def blankBody : ProfileBody :=
  ⟨none, none, none, none, none, none, .text "", none, none, none, none, none⟩

/-! ## Lemmas and theorems -/

theorem jsIndexOf_ge (xs : List String) (t : Option String) : -1 ≤ jsIndexOf xs t := by
  induction xs with
  | nil => simp [jsIndexOf]
  | cons x xs ih =>
    simp only [jsIndexOf]
    split_ifs <;> omega

theorem jsIndexOf_undefined (xs : List String) : jsIndexOf xs none = -1 := by
  induction xs with
  | nil => rfl
  | cons x xs ih => simp [jsIndexOf, ih]

theorem jsIndexOf_of_not_mem (xs : List String) (e : String) (h : e ∉ xs) :
    jsIndexOf xs (some e) = -1 := by
  induction xs with
  | nil => rfl
  | cons x xs ih =>
    simp only [List.mem_cons, not_or] at h
    have hx : ¬ (some x = some e) := by
      intro hc
      exact h.1 (Option.some.inj hc).symm
    simp [jsIndexOf, hx, ih h.2]

theorem jsIndexOf_of_mem (xs : List String) (e : String) (h : e ∈ xs) :
    jsIndexOf xs (some e) = (xs.indexOf e : Int) := by
  induction xs with
  | nil => simp at h
  | cons x xs ih =>
    by_cases hx : x = e
    · subst hx
      simp [jsIndexOf]
    · have hmem : e ∈ xs := by
        rcases List.mem_cons.mp h with h1 | h1
        · exact absurd h1.symm hx
        · exact h1
      have hne : ¬ (some x = some e) := fun hc => hx (Option.some.inj hc)
      have hidx : List.indexOf e (x :: xs) = List.indexOf e xs + 1 := by
        rw [List.indexOf_cons_ne]
        exact hx
      simp only [jsIndexOf, hne, if_false, ih hmem, hidx]
      have : ¬ ((List.indexOf e xs : Int) < 0) := by omega
      simp [this]

theorem jsSplice_ofNat {α : Type} (xs : List α) (n : Nat) :
    jsSplice xs (n : Int) 1 = xs.eraseIdx n := by
  induction xs generalizing n with
  | nil => simp [jsSplice]
  | cons x xs ih =>
    cases n with
    | zero => simp [jsSplice]
    | succ n =>
      have h := ih n
      simp only [jsSplice] at h ⊢
      have hlt : ¬ (((n + 1 : Nat) : Int) < 0) := by omega
      have hlt2 : ¬ ((n : Int) < 0) := by omega
      simp only [hlt, hlt2, if_false, Int.toNat_ofNat, List.length_cons] at h ⊢
      rw [List.eraseIdx_cons_succ, ← h]
      have e1 : min (n + 1) (xs.length + 1) = min n xs.length + 1 := by omega
      have e2 : min 1 (xs.length + 1 - (min n xs.length + 1)) = min 1 (xs.length - min n xs.length) := by
        omega
      rw [e1, e2]
      have e3 : min n xs.length + 1 + min 1 (xs.length - min n xs.length)
          = (min n xs.length + min 1 (xs.length - min n xs.length)) + 1 := by omega
      rw [e3, List.take_succ_cons, List.drop_succ_cons, List.cons_append]

theorem jsSplice_neg_one {α : Type} (xs : List α) : jsSplice xs (-1) 1 = xs.dropLast := by
  cases hxs : xs with
  | nil => simp [jsSplice]
  | cons x t =>
    rw [← hxs]
    have hlen : xs.length = t.length + 1 := by simp [hxs]
    simp only [jsSplice]
    have h1 : (max ((xs.length : Int) + -1) 0).toNat = xs.length - 1 := by
      rw [hlen]; omega
    simp only [show ((-1 : Int) < 0) from by omega, if_true, h1]
    have h2 : min 1 (xs.length - (xs.length - 1)) = 1 := by omega
    rw [h2, List.dropLast_eq_take]
    have h3 : xs.length - 1 + 1 = xs.length := by omega
    rw [h3]
    simp

theorem eraseIdx_indexOf_eq_filter {α : Type} (f : α → String) (L : List α) (e : String)
    (hnd : (L.map f).Nodup) (hmem : e ∈ L.map f) :
    L.eraseIdx ((L.map f).indexOf e) = L.filter (fun x => !(f x == e)) := by
  induction L with
  | nil => simp at hmem
  | cons x xs ih =>
    simp only [List.map_cons, List.nodup_cons] at hnd
    by_cases hx : f x = e
    · subst hx
      have hall : ∀ y ∈ xs, (!(f y == f x)) = true := by
        intro y hy
        have : f y ≠ f x := by
          intro hc
          exact hnd.1 (hc ▸ List.mem_map_of_mem f hy)
        simp [this]
      simp [List.filter_eq_self.mpr hall]
    · have hmem2 : e ∈ xs.map f := by
        simp only [List.map_cons, List.mem_cons] at hmem
        rcases hmem with h1 | h1
        · exact absurd h1.symm hx
        · exact h1
      have hidx : List.indexOf e (f x :: xs.map f) = List.indexOf e (xs.map f) + 1 := by
        rw [List.indexOf_cons_ne]
        exact hx
      simp only [List.map_cons, hidx, List.eraseIdx_cons_succ, ih hnd.2 hmem2]
      simp [hx]

theorem find_saveProfile (uid : String) (doc p : Profile) (ps : List Profile)
    (hfind : ps.find? (fun q => q.user == uid) = some p) (hdoc : doc.user = uid) :
    (saveProfile uid doc ps).find? (fun q => q.user == uid) = some doc := by
  induction ps with
  | nil => simp at hfind
  | cons q qs ih =>
    by_cases hq : q.user = uid
    · simp [saveProfile, hq, hdoc]
    · have hq3 : (q.user == uid) = false := by simpa using hq
      simp only [List.find?_cons, hq3] at hfind
      simp only [saveProfile, hq3, Bool.false_eq_true, if_false, List.find?_cons]
      exact ih hfind

theorem filter_saveProfile (uid : String) (doc : Profile) (ps : List Profile)
    (hdoc : doc.user = uid) :
    (saveProfile uid doc ps).filter (fun q => !(q.user == uid))
      = ps.filter (fun q => !(q.user == uid)) := by
  induction ps with
  | nil => rfl
  | cons q qs ih =>
    by_cases hq : q.user = uid
    · simp [saveProfile, hq, hdoc]
    · simp [saveProfile, hq, ih]

theorem findProfile_user (s : Store) (uid : String) (p : Profile)
    (h : findProfile s uid = some p) : p.user = uid := by
  have := List.find?_some h
  simpa using this

/-- Claim C3: on a profile whose experience identifiers are distinct and contain `e`, the
route `DELETE /api/profile/experience/:exp_id` with path id `e` answers with the profile
whose experience list is the original list without the entry named `e`, the
other entries in their original order: one entry fewer, and no entry named `e`.
The same profile is what the store then holds for the caller. -/
theorem removeExperience_removes_named_entry (faults : DbFaults) (s : Store) (uid e : String)
    (profile : Profile)
    (hfind : findProfile s uid = some profile)
    (hdistinct : (profile.experience.map (fun item => item.id)).Nodup)
    (hmem : e ∈ profile.experience.map (fun item => item.id))
    (h0 : faults 0 = false) (h1 : faults 1 = false) :
    ∃ profile1 : Profile,
      (removeExperience faults s uid e).2 = json (.profile (some profile1)) ∧
      findProfile (removeExperience faults s uid e).1 uid = some profile1 ∧
      profile1 = { profile with
        experience := profile.experience.filter (fun item => !(item.id == e)) } ∧
      profile1.experience.length + 1 = profile.experience.length ∧
      e ∉ profile1.experience.map (fun item => item.id) := by
  have hidx : experienceRemoveIndex profile [("exp_id", e)]
      = ((profile.experience.map (fun item => item.id)).indexOf e : Int) := by
    simp only [experienceRemoveIndex, Params.get, List.find?_cons, beq_self_eq_true,
      Option.map_some']
    exact jsIndexOf_of_mem _ e hmem
  have hsplice : jsSplice profile.experience (experienceRemoveIndex profile [("exp_id", e)]) 1
      = profile.experience.filter (fun item => !(item.id == e)) := by
    rw [hidx, jsSplice_ofNat]
    exact eraseIdx_indexOf_eq_filter (fun item => item.id) profile.experience e hdistinct hmem
  refine ⟨{ profile with
    experience := profile.experience.filter (fun item => !(item.id == e)) }, ?_, ?_, rfl, ?_, ?_⟩
  · simp [removeExperience, removeExperienceHandler, h0, h1, hfind, hsplice]
  · simp only [removeExperience, removeExperienceHandler, h0, h1, hfind, hsplice]
    exact find_saveProfile uid _ profile s.profiles hfind (findProfile_user s uid profile hfind)
  · show (profile.experience.filter (fun item => !(item.id == e))).length + 1
      = profile.experience.length
    rw [← hsplice, hidx, jsSplice_ofNat, List.length_eraseIdx]
    have hlt : (profile.experience.map (fun item => item.id)).indexOf e
        < (profile.experience.map (fun item => item.id)).length := List.indexOf_lt_length.mpr hmem
    simp only [List.length_map] at hlt
    simp only [hlt, if_true]
    omega
  · simp [List.mem_map, List.mem_filter]

/-- The hypotheses of `removeExperience_removes_named_entry` hold on the sample store. -/
theorem removeExperience_removes_named_entry_witness :
    findProfile sampleStore "u1" = some annProfile ∧
    (annProfile.experience.map (fun item => item.id)).Nodup ∧
    "x1" ∈ annProfile.experience.map (fun item => item.id) ∧
    ∃ profile1 : Profile,
      (removeExperience noFaults sampleStore "u1" "x1").2 = json (.profile (some profile1)) ∧
      findProfile (removeExperience noFaults sampleStore "u1" "x1").1 "u1" = some profile1 ∧
      profile1 = { annProfile with
        experience := annProfile.experience.filter (fun item => !(item.id == "x1")) } ∧
      profile1.experience.length + 1 = annProfile.experience.length ∧
      "x1" ∉ profile1.experience.map (fun item => item.id) :=
  ⟨by decide, by decide, by decide,
    removeExperience_removes_named_entry noFaults sampleStore "u1" "x1" annProfile
      (by decide) (by decide) (by decide) rfl rfl⟩

/-- Claim C10: when the path id names no experience entry, the removal index is -1 and the
response is the profile with the last entry of the experience list dropped: a
non-empty list loses one entry, its last, and only an empty list comes back
unchanged. -/
theorem removeExperience_unknown_id_drops_last (faults : DbFaults) (s : Store) (uid e : String)
    (profile : Profile)
    (hfind : findProfile s uid = some profile)
    (hunknown : e ∉ profile.experience.map (fun item => item.id))
    (h0 : faults 0 = false) (h1 : faults 1 = false) :
    experienceRemoveIndex profile [("exp_id", e)] = -1 ∧
    (removeExperience faults s uid e).2
      = json (.profile (some { profile with experience := profile.experience.dropLast })) ∧
    findProfile (removeExperience faults s uid e).1 uid
      = some { profile with experience := profile.experience.dropLast } ∧
    (profile.experience.dropLast.length = profile.experience.length - 1) ∧
    (profile.experience = [] ∨
      (profile.experience.dropLast.length + 1 = profile.experience.length ∧
        ∃ last, profile.experience = profile.experience.dropLast ++ [last])) ∧
    ((removeExperience faults s uid e).2 = json (.profile (some profile))
      ↔ profile.experience = []) := by
  have hidx : experienceRemoveIndex profile [("exp_id", e)] = -1 := by
    simp only [experienceRemoveIndex, Params.get, List.find?_cons, beq_self_eq_true,
      Option.map_some']
    exact jsIndexOf_of_not_mem _ e hunknown
  have hresp : (removeExperience faults s uid e).2
      = json (.profile (some { profile with experience := profile.experience.dropLast })) := by
    simp [removeExperience, removeExperienceHandler, h0, h1, hfind, hidx, jsSplice_neg_one]
  refine ⟨hidx, hresp, ?_, by simp, ?_, ?_⟩
  · simp only [removeExperience, removeExperienceHandler, h0, h1, hfind, hidx, jsSplice_neg_one]
    exact find_saveProfile uid _ profile s.profiles hfind (findProfile_user s uid profile hfind)
  · by_cases hnil : profile.experience = []
    · exact Or.inl hnil
    · refine Or.inr ⟨?_, profile.experience.getLast hnil, ?_⟩
      · have := List.length_pos.mpr hnil
        simp only [List.length_dropLast]
        omega
      · exact (List.dropLast_append_getLast hnil).symm
  · rw [hresp]
    constructor
    · intro h
      have h2 : profile.experience.dropLast = profile.experience := by
        have h3 := congrArg (fun o => match o with
          | Outcome.responded ⟨_, Body.profile (some q)⟩ => q.experience
          | _ => []) h
        simpa [json] using h3
      by_contra hne
      have hlen := congrArg List.length h2
      have := List.length_pos.mpr hne
      simp only [List.length_dropLast] at hlen
      omega
    · intro h
      have : profile.experience.dropLast = profile.experience := by rw [h]; rfl
      rw [this]

/-- The hypotheses of `removeExperience_unknown_id_drops_last` hold on the sample store. -/
theorem removeExperience_unknown_id_drops_last_witness :
    findProfile sampleStore "u1" = some annProfile ∧
    "zz" ∉ annProfile.experience.map (fun item => item.id) ∧
    (removeExperience noFaults sampleStore "u1" "zz").2
      = json (.profile (some { annProfile with experience := [expA] })) :=
  ⟨by decide, by decide,
    (removeExperience_unknown_id_drops_last noFaults sampleStore "u1" "zz" annProfile
      (by decide) (by decide) rfl rfl).2.1⟩

/-- Claim C4: for a caller with a profile and a body that passes validation, the experience
route and the education route answer with the profile whose list is the new
entry followed by the old list, every other key of the profile as it was.  The
new entry holds the seven fields of the request body and the identifier the ODM
gave it; it is at index 0 and the length is one more.  The store then holds that
profile for the caller when the write completes, and the old one when it is
rejected. -/
theorem add_entry_prepends (newId : String) (faults : DbFaults) (s : Store) (uid : String)
    (profile : Profile) (xb : ExperienceBody) (eb : EducationBody)
    (hfind : findProfile s uid = some profile)
    (hxb : validationResult experienceChecks xb = [])
    (heb : validationResult educationChecks eb = [])
    (h0 : faults 0 = false) :
    (∃ (x : Experience) (profile1 : Profile),
      x = ⟨newId, xb.title, xb.company, xb.location, xb.fromDate, xb.toDate, xb.current,
        xb.description⟩ ∧
      (addExperience newId faults s uid xb).2 = json (.profile (some profile1)) ∧
      findProfile (addExperience newId faults s uid xb).1 uid
        = some (if faults 1 = true then profile else profile1) ∧
      profile1 = { profile with experience := x :: profile.experience } ∧
      profile1.experience.length = profile.experience.length + 1 ∧
      profile1.experience[0]? = some x ∧
      profile1.experience.tail = profile.experience) ∧
    (∃ (x : Education) (profile1 : Profile),
      x = ⟨newId, eb.school, eb.degree, eb.fieldofstudy, eb.fromDate, eb.toDate, eb.current,
        eb.description⟩ ∧
      (addEducation newId faults s uid eb).2 = json (.profile (some profile1)) ∧
      findProfile (addEducation newId faults s uid eb).1 uid
        = some (if faults 1 = true then profile else profile1) ∧
      profile1 = { profile with education := x :: profile.education } ∧
      profile1.education.length = profile.education.length + 1 ∧
      profile1.education[0]? = some x ∧
      profile1.education.tail = profile.education) := by
  have hu := findProfile_user s uid profile hfind
  constructor
  · refine ⟨_, { profile with experience := newExp newId xb :: profile.experience },
      rfl, ?_, ?_, rfl, by simp, by simp [newExp], by simp⟩
    · simp [addExperience, hxb, h0, hfind, newExp]
    · simp only [addExperience, hxb, h0, hfind, List.isEmpty_nil, Bool.not_true,
        Bool.false_eq_true, if_false]
      by_cases h1 : faults 1 = true
      · simp only [h1, if_true]
        exact hfind
      · simp only [h1, Bool.false_eq_true, if_false]
        exact find_saveProfile uid _ profile s.profiles hfind hu
  · refine ⟨_, { profile with education := newEdu newId eb :: profile.education },
      rfl, ?_, ?_, rfl, by simp, by simp [newEdu], by simp⟩
    · simp [addEducation, heb, h0, hfind, newEdu]
    · simp only [addEducation, heb, h0, hfind, List.isEmpty_nil, Bool.not_true,
        Bool.false_eq_true, if_false]
      by_cases h1 : faults 1 = true
      · simp only [h1, if_true]
        exact hfind
      · simp only [h1, Bool.false_eq_true, if_false]
        exact find_saveProfile uid _ profile s.profiles hfind hu

/-- The hypotheses of `add_entry_prepends` hold on the sample store.  For u1, whose lists hold
two entries each, the new entry with the fields of the body comes first and the
two old entries follow; for u2, whose list is empty, the returned list has
length 1. -/
theorem add_entry_prepends_witness :
    findProfile sampleStore "u1" = some annProfile ∧
    validationResult experienceChecks engBody = [] ∧
    validationResult educationChecks bsBody = [] ∧
    (addExperience "x9" noFaults sampleStore "u1" engBody).2
      = json (.profile (some { annProfile with
          experience :=
            [⟨"x9", some "Eng", some "X", none, some "2020-01-01", none, none, none⟩,
              expA, expB] })) ∧
    (addEducation "d9" noFaults sampleStore "u1" bsBody).2
      = json (.profile (some { annProfile with
          education :=
            [⟨"d9", some "UCSB", some "BS", some "CS", some "2014-09-01", none, none, none⟩,
              eduA, eduB] })) ∧
    (∃ profile1 : Profile,
      (addExperience "x9" noFaults sampleStore "u2" engBody).2
        = json (.profile (some profile1)) ∧
      profile1.experience.length = 1) :=
  ⟨by decide, by decide, by decide,
    match (add_entry_prepends "x9" noFaults sampleStore "u1" annProfile engBody bsBody
      (by decide) (by decide) (by decide) rfl).1 with
    | ⟨_, _, hx, hresp, _, hp1, _, _, _⟩ => by subst hx; subst hp1; exact hresp,
    match (add_entry_prepends "d9" noFaults sampleStore "u1" annProfile engBody bsBody
      (by decide) (by decide) (by decide) rfl).2 with
    | ⟨_, _, hx, hresp, _, hp1, _, _, _⟩ => by subst hx; subst hp1; exact hresp,
    match (add_entry_prepends "x9" noFaults sampleStore "u2" bobProfile engBody bsBody
      (by decide) (by decide) (by decide) rfl).1 with
    | ⟨_, p1, _, hresp, _, _, hlen, _, _⟩ => ⟨p1, hresp, hlen⟩⟩

theorem eraseP_eq_filter_of_le_one {α : Type} (q : α → Bool) (l : List α)
    (h : (l.filter q).length ≤ 1) : l.eraseP q = l.filter (fun x => !q x) := by
  induction l with
  | nil => rfl
  | cons x xs ih =>
    by_cases hx : q x = true
    · have hnone : ∀ y ∈ xs, ¬ q y = true := by
        intro y hy hqy
        have hpos : 0 < (xs.filter q).length :=
          List.length_pos_of_mem (List.mem_filter.mpr ⟨hy, hqy⟩)
        simp only [List.filter_cons, hx, if_true, List.length_cons] at h
        omega
      have hall : ∀ y ∈ xs, (!q y) = true := by
        intro y hy
        simpa using hnone y hy
      simp [List.eraseP_cons, hx, List.filter_eq_self.mpr hall]
    · have hx2 : q x = false := by simpa using hx
      simp only [List.filter_cons, hx2, Bool.false_eq_true, if_false] at h
      simp [List.eraseP_cons, hx2, ih h]

theorem findProfile_eq_none_of_filter (s : Store) (uid : String)
    (h : s.profiles.filter (fun p => !(p.user == uid)) = s.profiles) :
    findProfile s uid = none := by
  unfold findProfile
  rw [List.find?_eq_none]
  intro x hx
  rw [← h] at hx
  have := (List.mem_filter.mp hx).2
  simpa using this

/-- Claim C7 fails as stated: in a store where u1 owns two profiles, all three database
steps of `DELETE /api/profile` complete, a profile of u1 is still stored, and the
following lookup by user id answers with it. -/
theorem deleteOwn_leaves_second_profile :
    (deleteOwn noFaults duplicateStore "u1").2 = json (.msg "User removed") ∧
    annSecond ∈ (deleteOwn noFaults duplicateStore "u1").1.profiles ∧
    annSecond.user = "u1" ∧
    getByUserId (fun _ => true) noFaults (deleteOwn noFaults duplicateStore "u1").1 "u1"
      = json (.populated annSecond none) := by
  decide

/-- Claim C7, amended: when the store holds at most one profile of `u` and at most one user
record with id `u`, and the three database steps complete, the posts, profiles and
users left are exactly those of the other users, in their order, none belongs to
`u`, and a following lookup of the profile of `u` answers 400 "Profile not found". -/
theorem deleteOwn_cascades (castOk : String → Bool) (faults lookupFaults : DbFaults) (s : Store)
    (u : String)
    (h0 : faults 0 = false) (h1 : faults 1 = false) (h2 : faults 2 = false)
    (hprofile : (s.profiles.filter (fun p => p.user == u)).length ≤ 1)
    (huser : (s.users.filter (fun x => x.id == u)).length ≤ 1)
    (hlookup : lookupFaults 0 = false) :
    (deleteOwn faults s u).2 = json (.msg "User removed") ∧
    (deleteOwn faults s u).1.posts = s.posts.filter (fun p => !(p.user == u)) ∧
    (deleteOwn faults s u).1.profiles = s.profiles.filter (fun p => !(p.user == u)) ∧
    (deleteOwn faults s u).1.users = s.users.filter (fun x => !(x.id == u)) ∧
    (∀ p ∈ (deleteOwn faults s u).1.posts, p.user ≠ u) ∧
    (∀ p ∈ (deleteOwn faults s u).1.profiles, p.user ≠ u) ∧
    (∀ x ∈ (deleteOwn faults s u).1.users, x.id ≠ u) ∧
    getByUserId castOk lookupFaults (deleteOwn faults s u).1 u
      = .responded ⟨400, .msg "Profile not found"⟩ := by
  have hposts : (deleteOwn faults s u).1.posts = s.posts.filter (fun p => !(p.user == u)) := by
    simp [deleteOwn, h0, h1, h2]
  have hprofiles : (deleteOwn faults s u).1.profiles
      = s.profiles.filter (fun p => !(p.user == u)) := by
    simp only [deleteOwn, h0, h1, h2, Bool.false_eq_true, if_false]
    exact eraseP_eq_filter_of_le_one _ _ hprofile
  have husers : (deleteOwn faults s u).1.users = s.users.filter (fun x => !(x.id == u)) := by
    simp only [deleteOwn, h0, h1, h2, Bool.false_eq_true, if_false]
    exact eraseP_eq_filter_of_le_one _ _ huser
  refine ⟨by simp [deleteOwn, h0, h1, h2], hposts, hprofiles, husers, ?_, ?_, ?_, ?_⟩
  · intro p hp
    rw [hposts] at hp
    simpa using (List.mem_filter.mp hp).2
  · intro p hp
    rw [hprofiles] at hp
    simpa using (List.mem_filter.mp hp).2
  · intro x hx
    rw [husers] at hx
    simpa using (List.mem_filter.mp hx).2
  · have hnone : findProfile (deleteOwn faults s u).1 u = none := by
      apply findProfile_eq_none_of_filter
      rw [hprofiles, List.filter_filter]
      simp
    unfold getByUserId
    by_cases hc : castOk u = true
    · simp [hc, hlookup, hnone]
    · simp [hc]

/-- The hypotheses of `deleteOwn_cascades` hold on the sample store for u1. -/
theorem deleteOwn_cascades_witness :
    (sampleStore.profiles.filter (fun p => p.user == "u1")).length ≤ 1 ∧
    (sampleStore.users.filter (fun x => x.id == "u1")).length ≤ 1 ∧
    (deleteOwn noFaults sampleStore "u1").1
      = ⟨[bob, cat], [bobProfile], [⟨"p2", "u2", "hi"⟩]⟩ ∧
    getByUserId (fun _ => true) noFaults (deleteOwn noFaults sampleStore "u1").1 "u1"
      = .responded ⟨400, .msg "Profile not found"⟩ :=
  ⟨by decide, by decide, by decide,
    (deleteOwn_cascades (fun _ => true) noFaults noFaults sampleStore "u1" rfl rfl rfl
      (by decide) (by decide) rfl).2.2.2.2.2.2.2⟩

theorem buildProfileFields_user (normalize : String → String) (uid : String) (body : ProfileBody)
    (pf : ProfileFields) (h : buildProfileFields normalize uid body = some pf) :
    pf.user = uid := by
  unfold buildProfileFields at h
  split at h
  · simp at h
  · simp only [Option.some.injEq] at h
    rw [← h]

theorem findOneAndUpdate_snd (uid : String) (f : ProfileFields) (ps : List Profile) (p : Profile)
    (hfind : ps.find? (fun q => q.user == uid) = some p) :
    (findOneAndUpdate uid f ps).2 = some (applySet p f) := by
  induction ps with
  | nil => simp at hfind
  | cons q qs ih =>
    by_cases hq : (q.user == uid) = true
    · simp only [List.find?_cons, hq, Option.some.injEq] at hfind
      subst hfind
      simp [findOneAndUpdate, hq]
    · have hq3 : (q.user == uid) = false := by simpa using hq
      simp only [List.find?_cons, hq3] at hfind
      simp only [findOneAndUpdate, hq3, Bool.false_eq_true, if_false]
      exact ih hfind

theorem findOneAndUpdate_filter_ne (uid : String) (f : ProfileFields) (ps : List Profile)
    (hf : f.user = uid) :
    (findOneAndUpdate uid f ps).1.filter (fun q => !(q.user == uid))
      = ps.filter (fun q => !(q.user == uid)) := by
  induction ps with
  | nil => rfl
  | cons q qs ih =>
    by_cases hq : q.user = uid
    · simp [findOneAndUpdate, hq, applySet, hf]
    · simp [findOneAndUpdate, hq, ih]

theorem findOneAndUpdate_filter_eq (uid : String) (f : ProfileFields) (ps : List Profile)
    (p : Profile) (hf : f.user = uid)
    (hfind : ps.find? (fun q => q.user == uid) = some p)
    (hone : (ps.filter (fun q => q.user == uid)).length ≤ 1) :
    (findOneAndUpdate uid f ps).1.filter (fun q => q.user == uid) = [applySet p f] := by
  induction ps with
  | nil => simp at hfind
  | cons q qs ih =>
    by_cases hq : (q.user == uid) = true
    · simp only [List.find?_cons, hq, Option.some.injEq] at hfind
      subst hfind
      simp only [List.filter_cons, hq, if_true, List.length_cons] at hone
      have hnil : qs.filter (fun q => q.user == uid) = [] :=
        List.length_eq_zero.mp (by omega)
      have hset : ((applySet q f).user == uid) = true := by simp [applySet, hf]
      simp only [findOneAndUpdate, hq, if_true, List.filter_cons, hset, hnil]
    · have hq3 : (q.user == uid) = false := by simpa using hq
      simp only [List.find?_cons, hq3] at hfind
      simp only [List.filter_cons, hq3, Bool.false_eq_true, if_false] at hone
      simp only [findOneAndUpdate, hq3, Bool.false_eq_true, if_false, List.filter_cons]
      exact ih hfind hone

theorem filter_eq_nil_of_findProfile_none (s : Store) (uid : String)
    (h : findProfile s uid = none) : s.profiles.filter (fun q => q.user == uid) = [] := by
  unfold findProfile at h
  rw [List.find?_eq_none] at h
  rw [List.filter_eq_nil_iff]
  exact h

/-- What one successful call of the upsert handler leaves behind. -/
theorem upsertProfile_success (normalize : String → String) (schemaOk : Profile → Bool)
    (faults : DbFaults) (s : Store) (u : String) (body : ProfileBody) (p : Profile)
    (hone : (s.profiles.filter (fun q => q.user == u)).length ≤ 1)
    (hres : (upsertProfile normalize schemaOk faults s u body).2 = json (.profile (some p))) :
    (upsertProfile normalize schemaOk faults s u body).1.profiles.filter (fun q => q.user == u)
      = [p] ∧
    (upsertProfile normalize schemaOk faults s u body).1.profiles.filter
        (fun q => !(q.user == u))
      = s.profiles.filter (fun q => !(q.user == u)) ∧
    ∃ pf, buildProfileFields normalize u body = some pf ∧
      p.user = u ∧ p.company = pf.company ∧ p.location = pf.location ∧
      p.website = some pf.website ∧ p.bio = pf.bio ∧ p.skills = pf.skills ∧
      p.status = pf.status ∧ p.githubusername = pf.githubusername ∧ p.social = pf.social := by
  unfold upsertProfile at hres ⊢
  simp only [validationResult, upsertChecks, List.flatMap_nil, List.isEmpty_nil, Bool.not_true,
    Bool.false_eq_true, if_false] at hres ⊢
  cases hb : buildProfileFields normalize u body with
  | none => simp [hb, json] at hres
  | some pf =>
    have hpfu := buildProfileFields_user normalize u body pf hb
    simp only [hb] at hres ⊢
    by_cases hf0 : faults 0 = true
    · simp [hf0, json, serverError] at hres
    · simp only [hf0, Bool.false_eq_true, if_false] at hres ⊢
      cases hfp : findProfile s u with
      | some q =>
        simp only [hfp] at hres ⊢
        by_cases hf1 : faults 1 = true
        · simp [hf1, json, serverError] at hres
        · simp only [hf1, Bool.false_eq_true, if_false] at hres ⊢
          have hsnd := findOneAndUpdate_snd u pf s.profiles q hfp
          rw [hsnd] at hres
          have hp : applySet q pf = p := by simpa [json] using hres
          refine ⟨?_, findOneAndUpdate_filter_ne u pf s.profiles hpfu, pf, rfl, ?_⟩
          · rw [← hp]
            exact findOneAndUpdate_filter_eq u pf s.profiles q hpfu hfp hone
          · rw [← hp]
            simp [applySet, hpfu]
      | none =>
        simp only [hfp] at hres ⊢
        by_cases hbad : (faults 1 || !schemaOk (newProfile pf)) = true
        · simp [hbad, json, serverError] at hres
        · simp only [hbad, Bool.false_eq_true, if_false] at hres ⊢
          have hp : newProfile pf = p := by simpa [json] using hres
          have hnil := filter_eq_nil_of_findProfile_none s u hfp
          refine ⟨?_, ?_, pf, rfl, ?_⟩
          · rw [List.filter_append, hnil, ← hp]
            simp [newProfile, hpfu]
          · rw [List.filter_append]
            simp [newProfile, hpfu]
          · rw [← hp]
            simp [newProfile, hpfu]

/-- Claim C9: from a store with at most one profile per user, two successive successful calls
of `POST /api/profile` by `u` leave exactly one profile of `u`, the one returned by the
second call, whose fields are those of the `profileFields` built from the second
body; the profiles of the other users are unchanged. -/
theorem upsertProfile_twice_overwrites (normalize : String → String)
    (schemaOk : Profile → Bool) (faults1 faults2 : DbFaults) (s : Store) (u : String)
    (f1 f2 : ProfileBody) (p1 p2 : Profile)
    (hone : ∀ v, (s.profiles.filter (fun q => q.user == v)).length ≤ 1)
    (hfirst : (upsertProfile normalize schemaOk faults1 s u f1).2 = json (.profile (some p1)))
    (hsecond : (upsertProfile normalize schemaOk faults2
        (upsertProfile normalize schemaOk faults1 s u f1).1 u f2).2
      = json (.profile (some p2))) :
    (upsertProfile normalize schemaOk faults2
        (upsertProfile normalize schemaOk faults1 s u f1).1 u f2).1.profiles.filter
        (fun q => q.user == u) = [p2] ∧
    (∃ pf, buildProfileFields normalize u f2 = some pf ∧
      p2.company = pf.company ∧ p2.location = pf.location ∧ p2.website = some pf.website ∧
      p2.bio = pf.bio ∧ p2.skills = pf.skills ∧ p2.status = pf.status ∧
      p2.githubusername = pf.githubusername ∧ p2.social = pf.social) ∧
    (upsertProfile normalize schemaOk faults2
        (upsertProfile normalize schemaOk faults1 s u f1).1 u f2).1.profiles.filter
        (fun q => !(q.user == u))
      = s.profiles.filter (fun q => !(q.user == u)) := by
  obtain ⟨ha1, hb1, _⟩ := upsertProfile_success normalize schemaOk faults1 s u f1 p1 (hone u) hfirst
  have hone1 : ((upsertProfile normalize schemaOk faults1 s u f1).1.profiles.filter
      (fun q => q.user == u)).length ≤ 1 := by
    rw [ha1]; simp
  obtain ⟨ha2, hb2, pf, hpf, _, hc⟩ := upsertProfile_success normalize schemaOk faults2
    (upsertProfile normalize schemaOk faults1 s u f1).1 u f2 p2 hone1 hsecond
  exact ⟨ha2, ⟨pf, hpf, hc⟩, hb2.trans hb1⟩

/-- The hypotheses of `upsertProfile_twice_overwrites` hold on a sample store: the first call
creates the profile of u1, the second overwrites it. -/
theorem upsertProfile_twice_overwrites_witness :
    (∀ v, (bobOnlyStore.profiles.filter (fun q => q.user == v)).length ≤ 1) ∧
    (upsertProfile sampleNormalize sampleSchemaOk noFaults bobOnlyStore "u1" firstBody).2
      = json (.profile (some annFirst)) ∧
    (upsertProfile sampleNormalize sampleSchemaOk noFaults
        (upsertProfile sampleNormalize sampleSchemaOk noFaults bobOnlyStore "u1" firstBody).1
        "u1" secondBody).1.profiles.filter (fun q => q.user == "u1") = [annLater] :=
  ⟨fun _ => List.length_filter_le _ _, by decide,
    (upsertProfile_twice_overwrites sampleNormalize sampleSchemaOk noFaults noFaults
      bobOnlyStore "u1" firstBody secondBody annFirst annLater
      (fun _ => List.length_filter_le _ _) (by decide) (by decide)).1⟩

theorem intercalate_single (sep x : List Char) : List.intercalate sep [x] = x := by
  simp [List.intercalate]

theorem intercalate_cons_cons (sep x y : List Char) (ys : List (List Char)) :
    List.intercalate sep (x :: y :: ys) = x ++ (sep ++ List.intercalate sep (y :: ys)) := by
  simp [List.intercalate]

theorem splitCommaChars_append_comma (x rest : List Char) (hx : ',' ∉ x) :
    splitCommaChars (x ++ ',' :: rest) = x :: splitCommaChars rest := by
  induction x with
  | nil => simp [splitCommaChars]
  | cons c cs ih =>
    simp only [List.mem_cons, not_or] at hx
    have hc : ¬ (c = ',') := fun h => hx.1 h.symm
    simp [splitCommaChars, hc, ih hx.2]

theorem splitCommaChars_of_no_comma (x : List Char) (hx : ',' ∉ x) :
    splitCommaChars x = [x] := by
  induction x with
  | nil => simp [splitCommaChars]
  | cons c cs ih =>
    simp only [List.mem_cons, not_or] at hx
    have hc : ¬ (c = ',') := fun h => hx.1 h.symm
    simp [splitCommaChars, hc, ih hx.2]

theorem splitCommaChars_intercalate (x : List Char) (xs : List (List Char))
    (hx : ∀ y ∈ x :: xs, ',' ∉ y) :
    splitCommaChars (List.intercalate [',', ' '] (x :: xs))
      = x :: xs.map (fun y => ' ' :: y) := by
  induction xs generalizing x with
  | nil =>
    rw [intercalate_single]
    simpa using splitCommaChars_of_no_comma x (hx x (by simp))
  | cons y ys ih =>
    rw [intercalate_cons_cons]
    have hy : ∀ z ∈ y :: ys, ',' ∉ z := fun z hz => hx z (List.mem_cons_of_mem _ hz)
    have e : x ++ ([',', ' '] ++ List.intercalate [',', ' '] (y :: ys))
        = x ++ ',' :: (' ' :: List.intercalate [',', ' '] (y :: ys)) := by simp
    rw [e, splitCommaChars_append_comma x _ (hx x (by simp))]
    have hsp : ¬ (' ' = ',') := by decide
    simp [splitCommaChars, hsp, ih y hy]

theorem dropWhile_eq_self_of_head {α : Type} (q : α → Bool) (l : List α)
    (h : ∀ c, l.head? = some c → q c = false) : l.dropWhile q = l := by
  cases l with
  | nil => rfl
  | cons c cs =>
    have := h c rfl
    simp [List.dropWhile_cons, this]

theorem trimChars_of_clean (x : List Char)
    (hhead : ∀ c, x.head? = some c → isJsWhiteSpace c = false)
    (hlast : ∀ c, x.getLast? = some c → isJsWhiteSpace c = false) :
    trimChars x = x := by
  unfold trimChars
  rw [dropWhile_eq_self_of_head _ x hhead, dropWhile_eq_self_of_head _ x.reverse]
  · simp
  · intro c hc
    rw [List.head?_reverse] at hc
    exact hlast c hc

theorem trimChars_space_cons (x : List Char)
    (hhead : ∀ c, x.head? = some c → isJsWhiteSpace c = false)
    (hlast : ∀ c, x.getLast? = some c → isJsWhiteSpace c = false) :
    trimChars (' ' :: x) = x := by
  have hsp : isJsWhiteSpace ' ' = true := by decide
  have h := trimChars_of_clean x hhead hlast
  unfold trimChars at h ⊢
  rw [List.dropWhile_cons, if_pos hsp]
  exact h

/-- Claim C6 fails as stated: the string "a, b, c" and the array of "a", "b", "c" normalise
to different sequences, and for the empty array the joined string normalises to
one element while the array normalises to none. -/
theorem normalizeSkills_shapes_differ :
    normalizeSkills (.text "a, b, c") = some [" a", " b", " c"] ∧
    normalizeSkills (.list ["a", "b", "c"]) = some ["a", "b", "c"] ∧
    normalizeSkills (.text "a, b, c") ≠ normalizeSkills (.list ["a", "b", "c"]) ∧
    jsJoin ", " ["a", "b", "c"] = "a, b, c" ∧
    normalizeSkills (.text (jsJoin ", " [])) = some [" "] ∧
    normalizeSkills (.list []) = some [] := by
  decide

/-- Claim C6, amended: for a non-empty list of names without a comma and without white space
at either end, the array input normalises to the list itself, and the string
made by joining the list with ", " normalises to the list with one space put in
front of every name; both results have as many elements as the list. -/
theorem normalizeSkills_joined_adds_space (l : List String) (hne : l ≠ [])
    (hcomma : ∀ x ∈ l, ',' ∉ x.data)
    (hhead : ∀ x ∈ l, ∀ c, x.data.head? = some c → isJsWhiteSpace c = false)
    (hlast : ∀ x ∈ l, ∀ c, x.data.getLast? = some c → isJsWhiteSpace c = false) :
    normalizeSkills (.list l) = some l ∧
    normalizeSkills (.text (jsJoin ", " l)) = some (l.map (fun x => " " ++ x)) ∧
    (normalizeSkills (.list l)).map List.length = some l.length ∧
    (normalizeSkills (.text (jsJoin ", " l))).map List.length = some l.length := by
  have htext : normalizeSkills (.text (jsJoin ", " l)) = some (l.map (fun x => " " ++ x)) := by
    cases l with
    | nil => exact absurd rfl hne
    | cons x xs =>
      have hsep : (", " : String).data = [',', ' '] := rfl
      have hsplit : splitCommaChars (jsJoin ", " (x :: xs)).data
          = x.data :: xs.map (fun y => ' ' :: y.data) := by
        simp only [jsJoin, hsep, List.map_cons]
        rw [splitCommaChars_intercalate]
        · simp [List.map_map, Function.comp]
        · intro y hy
          rw [← List.map_cons] at hy
          obtain ⟨z, hz, rfl⟩ := List.mem_map.mp hy
          exact hcomma z hz
      simp only [normalizeSkills, jsSplitComma, hsplit, List.map_cons, List.map_map,
        Option.some.injEq, List.cons.injEq]
      constructor
      · simp only [Function.comp, jsTrim]
        rw [trimChars_of_clean x.data (hhead x (by simp)) (hlast x (by simp))]
      · apply List.map_congr_left
        intro y hy
        have hy2 : y ∈ x :: xs := List.mem_cons_of_mem _ hy
        simp only [Function.comp, jsTrim]
        rw [trimChars_space_cons y.data (hhead y hy2) (hlast y hy2)]
  refine ⟨rfl, htext, rfl, ?_⟩
  rw [htext]
  simp

/-- The hypotheses of `normalizeSkills_joined_adds_space` hold on the list of the
specification. -/
theorem normalizeSkills_joined_adds_space_witness :
    (["a", "b", "c"] : List String) ≠ [] ∧
    normalizeSkills (.text (jsJoin ", " ["a", "b", "c"]))
      = some ((["a", "b", "c"] : List String).map (fun x => " " ++ x)) :=
  ⟨by decide,
    (normalizeSkills_joined_adds_space ["a", "b", "c"] (by decide) (by decide) (by decide)
      (by decide)).2.1⟩

/-- Claim C1, evaluated on the sample store: with an e-mail no user has, the login route
answers 400 with the error list under the key `errors`; with the e-mail of a user
and a password the comparison rejects, it answers 400 with the same list under
the key `erros`.  The two bodies differ. -/
theorem login_failure_bodies_differ :
    validationResult (loginChecks sampleIsEmail) ⟨some "zed@example.com", some "wrong"⟩ = [] ∧
    validationResult (loginChecks sampleIsEmail) ⟨some "ann@example.com", some "wrong"⟩ = [] ∧
    login sampleIsEmail sampleCompare sampleSign noFaults sampleStore
        ⟨some "zed@example.com", some "wrong"⟩
      = .responded ⟨400, .keyed "errors" [⟨"Invalid credentials", none, none, none⟩]⟩ ∧
    login sampleIsEmail sampleCompare sampleSign noFaults sampleStore
        ⟨some "ann@example.com", some "wrong"⟩
      = .responded ⟨400, .keyed "erros" [⟨"Invalid credentials", none, none, none⟩]⟩ ∧
    login sampleIsEmail sampleCompare sampleSign noFaults sampleStore
        ⟨some "zed@example.com", some "wrong"⟩
      ≠ login sampleIsEmail sampleCompare sampleSign noFaults sampleStore
        ⟨some "ann@example.com", some "wrong"⟩ := by
  decide

/-- Claim C2, evaluated on the sample store: the education route called with the id of the
first education entry reads `undefined` for the id, computes index -1, and answers
with the list in which the first entry is kept and the last one is gone; the
experience route on the same kind of request removes the named entry. -/
theorem removeEducation_drops_last_entry :
    annProfile.education = [eduA, eduB] ∧
    Params.get [("exp_id", "d1")] "edu_id" = none ∧
    educationRemoveIndex annProfile [("exp_id", "d1")] = -1 ∧
    (removeEducation noFaults sampleStore "u1" "d1").2
      = json (.profile (some { annProfile with education := [eduA] })) ∧
    (removeExperience noFaults sampleStore "u1" "x1").2
      = json (.profile (some { annProfile with experience := [expB] })) := by
  decide

/-- Claim C5, evaluated on the sample store: for a caller without a profile and bodies that
pass validation, the experience route and the education route answer 500
"Server Error" and leave the store as it was; the route `GET /api/profile/me` answers
the same caller with the 400 message that there is no profile. -/
theorem add_entry_without_profile_is_server_error :
    findProfile sampleStore "u3" = none ∧
    validationResult experienceChecks engBody = [] ∧
    validationResult educationChecks bsBody = [] ∧
    addExperience "x9" noFaults sampleStore "u3" engBody = (sampleStore, serverError) ∧
    addEducation "d9" noFaults sampleStore "u3" bsBody = (sampleStore, serverError) ∧
    serverError = .responded ⟨500, .text "Server Error"⟩ ∧
    getOwnProfile noFaults sampleStore "u3"
      = .responded ⟨400, .msg "There is no profile for this user"⟩ := by
  decide

/-- Claim C8, evaluated on the sample store: the route `POST /api/profile` registers no check, so
no body gives a validation error; a body without the `skills` key makes the handler
throw with no response sent, and a body with no status and empty skills is
accepted and overwrites the stored profile of the caller. -/
theorem upsertProfile_does_not_validate :
    upsertChecks.length = 0 ∧
    validationResult upsertChecks noSkillsBody = [] ∧
    upsertProfile sampleNormalize sampleSchemaOk noFaults sampleStore "u3" noSkillsBody
      = (sampleStore, .threw "TypeError") ∧
    (upsertProfile sampleNormalize sampleSchemaOk noFaults sampleStore "u1" blankBody).2
      = json (.profile (some
          { annProfile with
            company := none, website := some "", skills := [" "], status := none })) ∧
    findProfile
        (upsertProfile sampleNormalize sampleSchemaOk noFaults sampleStore "u1" blankBody).1 "u1"
      ≠ findProfile sampleStore "u1" := by
  decide

end UCSBConnect
